import Mathlib

/-!
Verification development for the dual-storage todo service.

The embedding follows the TypeScript source:

- `src/types/enums.ts` — the `TodoPriority` and `BlockchainSyncStatus` enums;
- `src/services/hash.service.ts` — `HashService.generateTodoHash`;
- `src/repositories/todo.repository.ts` — `TodoRepository` (MongoDB adapter);
- `src/services/todo.service.ts` — `TodoService` (the sync orchestrator);
- `src/services/blockchain.service.ts` — the ledger client, modelled as an
  abstract record of possibly-failing operations.

Conventions of the embedding:

- JavaScript `Date` values are epoch milliseconds (`Nat`).  The library
  function `Date.prototype.toISOString` is modelled by `dateToISOString`,
  an injective canonical rendering of the millisecond value into decimal
  digits: exactly like the real ISO-8601 string it is determined by and
  determines the underlying timestamp, and it never contains the field
  separator character of the hash serialization.
- Asynchronous code is modelled sequentially: each service operation is a
  pure function from the store before the call to the store after the
  fire-and-forget background work has settled; the blockchain client's
  behaviour is an explicit parameter, and a thrown/rejected promise is an
  `Except.error` / `rejected` field rather than a JS exception.
- The SHA-256 digest primitive is kept abstract: every definition takes the
  digest function as an explicit parameter `digest : String → String`; no
  property of the digest other than being a function is ever used.
-/

deriving instance DecidableEq for Except

namespace TodoApp

/-- Enum `TodoPriority` from `src/types/enums.ts`. -/
inductive TodoPriority where
  | low
  | medium
  | high
  | urgent
deriving DecidableEq

/-- String value of each `TodoPriority` member (`'low' | 'medium' | 'high' | 'urgent'`). -/
def TodoPriority.toValue : TodoPriority → String
  | .low => "low"
  | .medium => "medium"
  | .high => "high"
  | .urgent => "urgent"

/-- Enum `BlockchainSyncStatus` from `src/types/enums.ts`. -/
inductive BlockchainSyncStatus where
  | pending
  | synced
  | failed
deriving DecidableEq

/-- String value of each `BlockchainSyncStatus` member. -/
def BlockchainSyncStatus.toValue : BlockchainSyncStatus → String
  | .pending => "pending"
  | .synced => "synced"
  | .failed => "failed"

/-- Parse a `BlockchainSyncStatus` enum value back from its string form. -/
def BlockchainSyncStatus.ofValue (s : String) : Option BlockchainSyncStatus :=
  if s = "pending" then some .pending
  else if s = "synced" then some .synced
  else if s = "failed" then some .failed
  else none

/-- Fuel-driven most-significant-first decimal digit rendering. -/
def toDecimalAux : Nat → Nat → List Char
  | 0, _ => []
  | fuel + 1, n =>
    if n = 0 then [] else toDecimalAux fuel (n / 10) ++ [Nat.digitChar (n % 10)]

/-- Model of `Date.prototype.toISOString` on an epoch-millisecond value:
a canonical injective decimal rendering of the timestamp.  Like the real
ISO string it consists of characters other than `'|'` and is in bijection
with the underlying millisecond value. -/
def dateToISOString (t : Nat) : String :=
  if t = 0 then "0" else String.mk (toDecimalAux t t)

/-- The view of a todo consumed by `HashService.generateTodoHash`
(`Partial<ITodo>` in the source): every field the serializer reads,
each possibly absent. -/
structure TodoSnapshot where
  userId : Option String
  title : Option String
  description : Option String
  isCompleted : Option Bool
  priority : Option TodoPriority
  dueDate : Option Nat
  createdAt : Option Nat
deriving DecidableEq

/-- The `dataString` built inside `HashService.generateTodoHash`
(`src/services/hash.service.ts` lines 7-15): the seven semantic fields
rendered and joined with `'|'`.  The trailing component mirrors
`todo.createdAt?.toISOString() || new Date().toISOString()`, so the
current time `now` is an explicit argument. -/
def serializeTodo (todo : TodoSnapshot) (now : Nat) : String :=
  todo.userId.getD "" ++ "|" ++
  todo.title.getD "" ++ "|" ++
  todo.description.getD "" ++ "|" ++
  (if todo.isCompleted.getD false then "true" else "false") ++ "|" ++
  (todo.priority.getD .medium).toValue ++ "|" ++
  ((todo.dueDate.map dateToISOString).getD "") ++ "|" ++
  dateToISOString (todo.createdAt.getD now)

/-- `HashService.generateTodoHash`: SHA-256 of the serialized fields as a
`0x`-prefixed hex string.  The digest primitive is the explicit parameter
`digest`. -/
def generateTodoHash (digest : String → String) (todo : TodoSnapshot) (now : Nat) : String :=
  "0x" ++ digest (serializeTodo todo now)

/-- A persisted todo document (`ITodo` in `src/models/todo.model.ts`).
`mongoId` is the Mongo `_id` rendered as a string.  All `Date` fields are
epoch milliseconds.  The final field `ghostLastSynced` is specification
instrumentation only: it is not a source field, is never read by any
modelled operation, and is written exactly when a blockchain sync success
is committed, recording the snapshot whose hash was pushed; it exists so
that history-referencing invariants can be stated. -/
structure TodoDoc where
  mongoId : String
  userId : String
  title : String
  description : Option String
  isCompleted : Bool
  completedAt : Option Nat
  priority : TodoPriority
  dueDate : Option Nat
  blockchainHash : Option String
  blockchainTxHash : Option String
  blockchainSyncStatus : BlockchainSyncStatus
  blockchainSyncError : Option String
  blockchainSyncedAt : Option Nat
  syncRetryCount : Nat
  isDeleted : Bool
  deletedAt : Option Nat
  createdAt : Nat
  updatedAt : Nat
  ghostLastSynced : Option TodoSnapshot := none
deriving DecidableEq

/-- The `Partial<ITodo>` view of a stored document, as passed to
`generateTodoHash`: every semantic field is present. -/
def TodoDoc.snapshot (d : TodoDoc) : TodoSnapshot :=
  { userId := some d.userId
    title := some d.title
    description := d.description
    isCompleted := some d.isCompleted
    priority := some d.priority
    dueDate := d.dueDate
    createdAt := some d.createdAt }

/-- The MongoDB todo collection. -/
abbrev Store := List TodoDoc

/-- The filter `{ _id: todoId, userId, isDeleted: false }` used by
`TodoRepository.findById`, `update` and `softDelete`. -/
def matchesActive (todoId userId : String) (d : TodoDoc) : Bool :=
  decide (d.mongoId = todoId) && decide (d.userId = userId) && !d.isDeleted

namespace TodoRepository

/-- Mongo `findOne`-style update: rewrite the first document matching the
filter with `f`, returning the new collection and (as with
`{ new: true }`) the rewritten document. -/
def updateFirst (p : TodoDoc → Bool) (f : TodoDoc → TodoDoc) : Store → Store × Option TodoDoc
  | [] => ([], none)
  | d :: ds =>
    if p d then (f d :: ds, some (f d))
    else
      let r := updateFirst p f ds
      (d :: r.1, r.2)

/-- `TodoRepository.findById`: `Todo.findOne({ _id, userId, isDeleted: false })`. -/
def findById (store : Store) (todoId userId : String) : Option TodoDoc :=
  store.find? (matchesActive todoId userId)

/-- The `$set` payload accepted by `TodoRepository.update`: every field the
service layer ever passes, each optionally present.  `dueDate` is doubly
optional because the update DTO allows an explicit `null` (clear the date). -/
structure UpdatePatch where
  title : Option String := none
  description : Option String := none
  isCompleted : Option Bool := none
  priority : Option TodoPriority := none
  dueDate : Option (Option Nat) := none
  blockchainHash : Option String := none
  blockchainTxHash : Option String := none
  blockchainSyncStatus : Option BlockchainSyncStatus := none
  blockchainSyncedAt : Option Nat := none
deriving DecidableEq

/-- Apply a `$set` patch to one document.  Mongoose timestamps refresh
`updatedAt` on every `findOneAndUpdate`. -/
def applyPatch (patch : UpdatePatch) (now : Nat) (d : TodoDoc) : TodoDoc :=
  { d with
    title := patch.title.getD d.title
    description := match patch.description with
      | some s => some s
      | none => d.description
    isCompleted := patch.isCompleted.getD d.isCompleted
    priority := patch.priority.getD d.priority
    dueDate := match patch.dueDate with
      | some v => v
      | none => d.dueDate
    blockchainHash := match patch.blockchainHash with
      | some h => some h
      | none => d.blockchainHash
    blockchainTxHash := match patch.blockchainTxHash with
      | some h => some h
      | none => d.blockchainTxHash
    blockchainSyncStatus := patch.blockchainSyncStatus.getD d.blockchainSyncStatus
    blockchainSyncedAt := match patch.blockchainSyncedAt with
      | some t => some t
      | none => d.blockchainSyncedAt
    updatedAt := now }

/-- `TodoRepository.update`: `findOneAndUpdate({ _id, userId, isDeleted: false },
{ $set: updateData }, { new: true })`. -/
def update (store : Store) (todoId userId : String) (patch : UpdatePatch) (now : Nat) :
    Store × Option TodoDoc :=
  updateFirst (matchesActive todoId userId) (applyPatch patch now) store

/-- `TodoRepository.softDelete`: set `isDeleted` and `deletedAt` on the first
active match. -/
def softDelete (store : Store) (todoId userId : String) (now : Nat) : Store × Option TodoDoc :=
  updateFirst (matchesActive todoId userId)
    (fun d => { d with isDeleted := true, deletedAt := some now, updatedAt := now }) store

/-- `TodoRepository.restore`: filter `{ _id, userId, isDeleted: true }`,
clear `isDeleted` and unset `deletedAt`. -/
def restore (store : Store) (todoId userId : String) (now : Nat) : Store × Option TodoDoc :=
  updateFirst (fun d => decide (d.mongoId = todoId) && decide (d.userId = userId) && d.isDeleted)
    (fun d => { d with isDeleted := false, deletedAt := none, updatedAt := now }) store

/-- `TodoRepository.toggleComplete`: fetch via `findById`, flip
`isCompleted`, set or clear `completedAt`, then `save()` the document
(which also refreshes `updatedAt`).  The sync-envelope fields are not
touched. -/
def toggleComplete (store : Store) (todoId userId : String) (now : Nat) :
    Store × Option TodoDoc :=
  match findById store todoId userId with
  | none => (store, none)
  | some _ =>
    updateFirst (matchesActive todoId userId)
      (fun d =>
        let c := !d.isCompleted
        { d with isCompleted := c, completedAt := if c then some now else none,
                 updatedAt := now }) store

/-- Values in a Mongo update document, as Mongoose sees them before casting
against the schema. -/
inductive BsonVal where
  | str (s : String)
  | num (n : Nat)
  | date (t : Nat)
  | obj (fields : List (String × BsonVal))

/-- Schema types of the paths touched by `updateBlockchainStatus`
(`src/models/todo.model.ts`). -/
inductive SchemaTy where
  | str
  | num
  | date
deriving DecidableEq

/-- Schema lookup for the update paths used by `updateBlockchainStatus`. -/
def todoSchemaTyOf (path : String) : Option SchemaTy :=
  if path = "blockchainSyncStatus" then some .str
  else if path = "blockchainTxHash" then some .str
  else if path = "blockchainSyncError" then some .str
  else if path = "blockchainSyncedAt" then some .date
  else if path = "syncRetryCount" then some .num
  else none

/-- Mongoose casting of one update value against a schema type: an object
literal never casts to a primitive path. -/
def castOk : SchemaTy → BsonVal → Bool
  | .str, .str _ => true
  | .num, .num _ => true
  | .date, .date _ => true
  | _, _ => false

/-- The `updateData` object built by `TodoRepository.updateBlockchainStatus`
(lines 196-219), in assignment order.  `if (txHash)` and `if (error)` are
JS truthiness tests, so an empty string behaves like an absent argument.
When an error is supplied the source assigns the literal object
`{ $inc: 1 }` to `syncRetryCount`; since that object sits inside what
becomes the `$set` document, it is just a malformed value for a `Number`
path, not an increment operator. -/
def buildStatusUpdate (status : BlockchainSyncStatus) (txHash error : Option String)
    (now : Nat) : List (String × BsonVal) :=
  [("blockchainSyncStatus", .str status.toValue)]
  ++ (match txHash with
      | some tx =>
        if tx.isEmpty then []
        else [("blockchainTxHash", .str tx), ("blockchainSyncedAt", .date now)]
      | none => [])
  ++ (match error with
      | some e =>
        if e.isEmpty then []
        else [("blockchainSyncError", .str e),
              ("syncRetryCount", .obj [("$inc", .num 1)])]
      | none => [])
  ++ (if status = .synced then [("blockchainSyncedAt", .date now)] else [])

/-- Mongoose `castUpdate`: every value must cast against its schema path,
otherwise the whole update is rejected with a `CastError` before any write. -/
def castUpdate (data : List (String × BsonVal)) : Except String (List (String × BsonVal)) :=
  if data.all (fun pv =>
      match todoSchemaTyOf pv.1 with
      | some ty => castOk ty pv.2
      | none => true) then
    .ok data
  else
    .error "CastError: Cast to Number failed at path syncRetryCount"

/-- Effect of one successfully cast `$set` assignment on a document. -/
def applyAssignment (d : TodoDoc) : String × BsonVal → TodoDoc
  | ("blockchainSyncStatus", .str s) =>
    { d with blockchainSyncStatus := (BlockchainSyncStatus.ofValue s).getD d.blockchainSyncStatus }
  | ("blockchainTxHash", .str s) => { d with blockchainTxHash := some s }
  | ("blockchainSyncError", .str s) => { d with blockchainSyncError := some s }
  | ("blockchainSyncedAt", .date t) => { d with blockchainSyncedAt := some t }
  | ("syncRetryCount", .num n) => { d with syncRetryCount := n }
  | _ => d

/-- `Todo.findByIdAndUpdate(todoId, data, { new: true })`: filter is on
`_id` alone (no owner scoping, no `isDeleted` filter); timestamps refresh
`updatedAt`. -/
def findByIdAndUpdate (store : Store) (todoId : String) (data : List (String × BsonVal))
    (now : Nat) : Store × Option TodoDoc :=
  updateFirst (fun d => decide (d.mongoId = todoId))
    (fun d => { data.foldl applyAssignment d with updatedAt := now }) store

/-- `TodoRepository.updateBlockchainStatus` (lines 196-223): build the
update document, cast it against the schema, and apply it via
`findByIdAndUpdate`.  An `Except.error` is the rejected promise the caller
receives when casting fails. -/
def updateBlockchainStatus (store : Store) (todoId : String) (status : BlockchainSyncStatus)
    (txHash error : Option String) (now : Nat) : Except String (Store × Option TodoDoc) :=
  match castUpdate (buildStatusUpdate status txHash error now) with
  | .error castErr => .error castErr
  | .ok data => .ok (findByIdAndUpdate store todoId data now)

/-- The filter of `TodoRepository.getFailedSyncs`: failed sync, fewer than
10 retries (`// Max 10 retries`), not soft-deleted. -/
def failedSyncPred (d : TodoDoc) : Bool :=
  decide (d.blockchainSyncStatus = .failed) && decide (d.syncRetryCount < 10) && !d.isDeleted

/-- Insertion step for the `updatedAt`-ascending sort. -/
def insertByUpdated (d : TodoDoc) : List TodoDoc → List TodoDoc
  | [] => [d]
  | e :: es => if d.updatedAt ≤ e.updatedAt then d :: e :: es else e :: insertByUpdated d es

/-- The `.sort({ updatedAt: 1 })` step of `getFailedSyncs` (oldest first). -/
def sortByUpdated : List TodoDoc → List TodoDoc
  | [] => []
  | d :: ds => insertByUpdated d (sortByUpdated ds)

/-- `TodoRepository.getFailedSyncs` (lines 228-236): failed, under the retry
cap, not deleted; oldest `updatedAt` first; at most `limit` results. -/
def getFailedSyncs (store : Store) (limit : Nat := 10) : List TodoDoc :=
  (sortByUpdated (store.filter failedSyncPred)).take limit

end TodoRepository

/-- `CreateTodoDTO` (validated payload of a create request). -/
structure CreateTodoDTO where
  title : String
  description : Option String := none
  priority : Option TodoPriority := none
  dueDate : Option Nat := none
deriving DecidableEq

/-- `UpdateTodoDTO`: every field optional; `dueDate` additionally nullable. -/
structure UpdateTodoDTO where
  title : Option String := none
  description : Option String := none
  priority : Option TodoPriority := none
  isCompleted : Option Bool := none
  dueDate : Option (Option Nat) := none
deriving DecidableEq

/-- The tuple returned by the `getTodo` contract call. -/
structure ChainTodo where
  todoHash : String
  owner : String
  timestamp : Nat
  isDeleted : Bool
deriving DecidableEq

/-- The ledger client (`src/services/blockchain.service.ts`): each method
submits a transaction (or view call) and either returns its result or
rethrows the underlying failure.  A value of this structure fixes one
behaviour of the external chain for the duration of a call. -/
structure BlockchainService where
  createTodo : String → String → Except String String
  updateTodo : String → String → Except String String
  deleteTodo : String → Except String String
  restoreTodo : String → Except String String
  verifyTodo : String → String → Except String Bool
  getTodo : String → Except String ChainTodo

/-- Trace of contract entry points invoked during one background sync. -/
inductive ChainCall where
  | create (todoId todoHash : String)
  | update (todoId todoHash : String)
  | delete (todoId : String)
  | restore (todoId : String)
deriving DecidableEq

/-- Trace of one invocation of `TodoRepository.updateBlockchainStatus`. -/
structure StatusCall where
  todoId : String
  status : BlockchainSyncStatus
  txHash : Option String
  error : Option String
deriving DecidableEq

/-- Outcome of one fire-and-forget background sync: the store after it
settles, the contract calls it made, the `updateBlockchainStatus`
invocations it issued, and the rejection (if any) escaping the async
function before the service-level `.catch` swallows it. -/
structure SyncResult where
  store : Store
  chainCalls : List ChainCall
  statusCalls : List StatusCall
  rejected : Option String
deriving DecidableEq

/-- Service-level errors (`ApiError` factories used by `TodoService`),
plus `thrown` for a raw rejection propagated without an `ApiError` wrapper. -/
inductive SvcError where
  | notFound (message : String)
  | badRequest (message : String)
  | thrown (message : String)
deriving DecidableEq

/-- Result shape of `TodoService.verifyTodo`. -/
structure VerifyResult where
  isValid : Bool
  mongoHash : String
  blockchainHash : String
  owner : String
  timestamp : Nat
  chainIsDeleted : Bool
deriving DecidableEq

namespace TodoService

/-- The MongoDB write made by `syncToBlockchain` / `updateOnBlockchain` on
success: `repository.update(todoId, todo.userId, { blockchainHash,
blockchainTxHash, blockchainSyncStatus: SYNCED, blockchainSyncedAt })`.
The ghost field records, at the same commit, the snapshot whose hash was
pushed (specification instrumentation only). -/
def commitSyncSuccess (store : Store) (todo : TodoDoc) (hash tx : String) (now : Nat) :
    Store × Option TodoDoc :=
  TodoRepository.updateFirst (matchesActive todo.mongoId todo.userId)
    (fun d =>
      { TodoRepository.applyPatch
          { blockchainHash := some hash
            blockchainTxHash := some tx
            blockchainSyncStatus := some .synced
            blockchainSyncedAt := some now } now d
        with ghostLastSynced := some todo.snapshot })
    store

/-- `TodoService.syncToBlockchain` (lines 245-280): hash the captured todo,
call the contract `createTodo`, and on success record hash/tx/status; on
failure record the failure via `updateBlockchainStatus(_, FAILED, undefined,
message)` — whose own rejection (if any) escapes the async function. -/
def syncToBlockchain (digest : String → String) (chain : BlockchainService) (todo : TodoDoc)
    (store : Store) (now : Nat) : SyncResult :=
  let todoId := todo.mongoId
  let hash := generateTodoHash digest todo.snapshot now
  match chain.createTodo todoId hash with
  | .ok tx =>
    { store := (commitSyncSuccess store todo hash tx now).1
      chainCalls := [.create todoId hash]
      statusCalls := []
      rejected := none }
  | .error e =>
    match TodoRepository.updateBlockchainStatus store todo.mongoId .failed none (some e) now with
    | .ok r =>
      { store := r.1
        chainCalls := [.create todoId hash]
        statusCalls := [⟨todoId, .failed, none, some e⟩]
        rejected := none }
    | .error castErr =>
      { store := store
        chainCalls := [.create todoId hash]
        statusCalls := [⟨todoId, .failed, none, some e⟩]
        rejected := some castErr }

/-- `TodoService.updateOnBlockchain` (lines 285-319): identical to
`syncToBlockchain` except that the contract call is `updateTodo` —
unconditionally, with no existence check or create fallback. -/
def updateOnBlockchain (digest : String → String) (chain : BlockchainService) (todo : TodoDoc)
    (store : Store) (now : Nat) : SyncResult :=
  let todoId := todo.mongoId
  let newHash := generateTodoHash digest todo.snapshot now
  match chain.updateTodo todoId newHash with
  | .ok tx =>
    { store := (commitSyncSuccess store todo newHash tx now).1
      chainCalls := [.update todoId newHash]
      statusCalls := []
      rejected := none }
  | .error e =>
    match TodoRepository.updateBlockchainStatus store todo.mongoId .failed none (some e) now with
    | .ok r =>
      { store := r.1
        chainCalls := [.update todoId newHash]
        statusCalls := [⟨todoId, .failed, none, some e⟩]
        rejected := none }
    | .error castErr =>
      { store := store
        chainCalls := [.update todoId newHash]
        statusCalls := [⟨todoId, .failed, none, some e⟩]
        rejected := some castErr }

/-- `TodoService.deleteOnBlockchain` (lines 324-337): call the contract,
catch any failure and only log it — the store is untouched either way and
no envelope write is issued. -/
def deleteOnBlockchain (chain : BlockchainService) (todoId : String) (store : Store) :
    SyncResult :=
  match chain.deleteTodo todoId with
  | .ok _ => { store := store, chainCalls := [.delete todoId], statusCalls := [], rejected := none }
  | .error _ =>
    { store := store, chainCalls := [.delete todoId], statusCalls := [], rejected := none }

/-- `TodoService.restoreOnBlockchain` (lines 342-355): same fire-and-log
shape as `deleteOnBlockchain`, using the contract `restoreTodo`. -/
def restoreOnBlockchain (chain : BlockchainService) (todoId : String) (store : Store) :
    SyncResult :=
  match chain.restoreTodo todoId with
  | .ok _ => { store := store, chainCalls := [.restore todoId], statusCalls := [], rejected := none }
  | .error _ =>
    { store := store, chainCalls := [.restore todoId], statusCalls := [], rejected := none }

/-- The `.catch(error => logger.error(...))` attached to every background
sync promise at the service layer: the rejection is logged and swallowed. -/
def swallowRejection (r : SyncResult) : SyncResult := { r with rejected := none }

/-- `TodoService.createTodo` (lines 38-61): insert the document (status
`PENDING`, Mongo defaults for the rest), return it to the caller
immediately, and let `syncToBlockchain` settle in the background.  `now` is
the creation timestamp, `nowSync` the (later) time of the background sync. -/
def createTodo (digest : String → String) (chain : BlockchainService) (store : Store)
    (userId : String) (data : CreateTodoDTO) (todoId : String) (now nowSync : Nat) :
    TodoDoc × SyncResult :=
  let todo : TodoDoc :=
    { mongoId := todoId
      userId := userId
      title := data.title
      description := data.description
      isCompleted := false
      completedAt := none
      priority := data.priority.getD .medium
      dueDate := data.dueDate
      blockchainHash := none
      blockchainTxHash := none
      blockchainSyncStatus := .pending
      blockchainSyncError := none
      blockchainSyncedAt := none
      syncRetryCount := 0
      isDeleted := false
      deletedAt := none
      createdAt := now
      updatedAt := now }
  let store1 := store ++ [todo]
  (todo, swallowRejection (syncToBlockchain digest chain todo store1 nowSync))

/-- `TodoService.getTodoById` (lines 77-85): `findById` or `ApiError.notFound`. -/
def getTodoById (store : Store) (todoId userId : String) : Except SvcError TodoDoc :=
  match TodoRepository.findById store todoId userId with
  | none => .error (.notFound "Todo not found")
  | some todo => .ok todo

/-- `TodoService.updateTodo` (lines 93-117): fetch (not-found check), commit
`{ ...data, blockchainSyncStatus: PENDING }`, return the updated document
immediately, background `updateOnBlockchain`. -/
def updateTodo (digest : String → String) (chain : BlockchainService) (store : Store)
    (todoId userId : String) (data : UpdateTodoDTO) (now nowSync : Nat) :
    Except SvcError (TodoDoc × SyncResult) :=
  match getTodoById store todoId userId with
  | .error err => .error err
  | .ok _ =>
    let r := TodoRepository.update store todoId userId
      { title := data.title
        description := data.description
        isCompleted := data.isCompleted
        priority := data.priority
        dueDate := data.dueDate
        blockchainSyncStatus := some .pending } now
    match r.2 with
    | none => .error (.notFound "Todo not found")
    | some updatedTodo =>
      .ok (updatedTodo, swallowRejection (updateOnBlockchain digest chain updatedTodo r.1 nowSync))

/-- `TodoService.toggleComplete` (lines 122-143): repository toggle (which
does not touch the sync envelope), not-found check, background
`updateOnBlockchain`. -/
def toggleComplete (digest : String → String) (chain : BlockchainService) (store : Store)
    (todoId userId : String) (now nowSync : Nat) : Except SvcError (TodoDoc × SyncResult) :=
  let r := TodoRepository.toggleComplete store todoId userId now
  match r.2 with
  | none => .error (.notFound "Todo not found")
  | some todo =>
    .ok (todo, swallowRejection (updateOnBlockchain digest chain todo r.1 nowSync))

/-- `TodoService.deleteTodo` (lines 149-167): fetch (not-found check), soft
delete, background `deleteOnBlockchain`. -/
def deleteTodo (chain : BlockchainService) (store : Store) (todoId userId : String)
    (now : Nat) : Except SvcError (Unit × SyncResult) :=
  match getTodoById store todoId userId with
  | .error err => .error err
  | .ok _ =>
    let r := TodoRepository.softDelete store todoId userId now
    match r.2 with
    | none => .error (.notFound "Todo not found")
    | some _ => .ok ((), swallowRejection (deleteOnBlockchain chain todoId r.1))

/-- `TodoService.restoreTodo` (lines 172-190): repository restore (matches
only soft-deleted documents), background `restoreOnBlockchain`. -/
def restoreTodo (chain : BlockchainService) (store : Store) (todoId userId : String)
    (now : Nat) : Except SvcError (TodoDoc × SyncResult) :=
  let r := TodoRepository.restore store todoId userId now
  match r.2 with
  | none => .error (.notFound "Todo not found or not deleted")
  | some todo => .ok (todo, swallowRejection (restoreOnBlockchain chain todoId r.1))

/-- `TodoService.verifyTodo` (lines 195-226): fetch (not-found check),
require `SYNCED` (else bad request), recompute the hash fresh from the
stored document, fetch the chain record, and ask the contract to compare.
Chain failures here are not caught and propagate to the caller. -/
def verifyTodo (digest : String → String) (chain : BlockchainService) (store : Store)
    (todoId userId : String) (now : Nat) : Except SvcError VerifyResult :=
  match getTodoById store todoId userId with
  | .error err => .error err
  | .ok todo =>
    if todo.blockchainSyncStatus ≠ .synced then
      .error (.badRequest "Todo not yet synced to blockchain")
    else
      let currentHash := generateTodoHash digest todo.snapshot now
      match chain.getTodo todoId with
      | .error e => .error (.thrown e)
      | .ok blockchainData =>
        match chain.verifyTodo todoId currentHash with
        | .error e => .error (.thrown e)
        | .ok isValid =>
          .ok
            { isValid := isValid
              mongoHash := currentHash
              blockchainHash := blockchainData.todoHash
              owner := blockchainData.owner
              timestamp := blockchainData.timestamp
              chainIsDeleted := blockchainData.isDeleted }

end TodoService

/-- Reachable stores of the dual-storage state machine, under a fixed
digest function.  The constructors are exactly the operations named by the
data-model invariant: `createTodo`, `updateTodo`, `toggleComplete` (each
including its background sync settling with an arbitrary chain behaviour),
and — only when `allowBare := true` — a direct
`TodoRepository.updateBlockchainStatus` call with arbitrary arguments. -/
inductive Reach (digest : String → String) : Bool → Store → Prop where
  | base (allowBare : Bool) : Reach digest allowBare []
  | create (allowBare : Bool) {s : Store} (h : Reach digest allowBare s)
      (chain : BlockchainService) (userId : String) (data : CreateTodoDTO)
      (todoId : String) (now nowSync : Nat) :
      Reach digest allowBare
        (TodoService.createTodo digest chain s userId data todoId now nowSync).2.store
  | update (allowBare : Bool) {s : Store} (h : Reach digest allowBare s)
      (chain : BlockchainService) (todoId userId : String) (data : UpdateTodoDTO)
      (now nowSync : Nat) {res : TodoDoc × SyncResult}
      (hres : TodoService.updateTodo digest chain s todoId userId data now nowSync = .ok res) :
      Reach digest allowBare res.2.store
  | toggle (allowBare : Bool) {s : Store} (h : Reach digest allowBare s)
      (chain : BlockchainService) (todoId userId : String) (now nowSync : Nat)
      {res : TodoDoc × SyncResult}
      (hres : TodoService.toggleComplete digest chain s todoId userId now nowSync = .ok res) :
      Reach digest allowBare res.2.store
  | bareStatus {s : Store} (h : Reach digest true s) (todoId : String)
      (status : BlockchainSyncStatus) (txHash error : Option String) (now : Nat)
      {res : Store × Option TodoDoc}
      (hres : TodoRepository.updateBlockchainStatus s todoId status txHash error now = .ok res) :
      Reach digest true res.1

/-- The data-model invariant under scrutiny: a synced document carries a
hash, and that hash is `generateTodoHash` of the snapshot recorded at its
last successful sync. -/
def syncedHashInv (digest : String → String) (d : TodoDoc) : Prop :=
  d.blockchainSyncStatus = .synced →
    ∃ snap, d.ghostLastSynced = some snap ∧
      d.blockchainHash = some (generateTodoHash digest snap 0)

/-! ### Properties of the canonical date rendering -/

lemma digitChar_lt_ten_ne_sep : ∀ d < 10, Nat.digitChar d ≠ '|' := by decide

lemma digitChar_lt_ten_inj : ∀ a < 10, ∀ b < 10, Nat.digitChar a = Nat.digitChar b → a = b := by
  decide

lemma digitChar_eq_char_zero : ∀ d < 10, Nat.digitChar d = '0' → d = 0 := by decide

lemma map_digitChar_inj :
    ∀ (l1 l2 : List Nat), (∀ a ∈ l1, a < 10) → (∀ a ∈ l2, a < 10) →
      l1.map Nat.digitChar = l2.map Nat.digitChar → l1 = l2 := by
  intro l1
  induction l1 with
  | nil =>
    intro l2 _ _ h
    cases l2 with
    | nil => rfl
    | cons b u => simp at h
  | cons a t ih =>
    intro l2 h1 h2 h
    cases l2 with
    | nil => simp at h
    | cons b u =>
      simp only [List.map_cons, List.cons.injEq] at h
      have hab : a = b :=
        digitChar_lt_ten_inj a (h1 a (by simp)) b (h2 b (by simp)) h.1
      have htu : t = u :=
        ih u (fun x hx => h1 x (by simp [hx])) (fun x hx => h2 x (by simp [hx])) h.2
      rw [hab, htu]

lemma mem_digits_lt_ten {t d : Nat} (h : d ∈ (Nat.digits 10 t).reverse) : d < 10 :=
  Nat.digits_lt_base (by norm_num) (List.mem_reverse.mp h)

lemma toDecimalAux_eq_digits :
    ∀ (fuel n : Nat), n ≤ fuel →
      toDecimalAux fuel n = (Nat.digits 10 n).reverse.map Nat.digitChar := by
  intro fuel
  induction fuel with
  | zero =>
    intro n hn
    have h0 : n = 0 := Nat.le_zero.mp hn
    subst h0
    simp [toDecimalAux]
  | succ f ih =>
    intro n hn
    rw [toDecimalAux]
    by_cases h0 : n = 0
    · subst h0
      simp
    · rw [if_neg h0]
      have hdiv : n / 10 ≤ f := by
        have hlt : n / 10 < n := Nat.div_lt_self (Nat.pos_of_ne_zero h0) (by norm_num)
        omega
      rw [ih _ hdiv]
      rw [Nat.digits_def' (by norm_num : (1 : Nat) < 10) (Nat.pos_of_ne_zero h0)]
      simp

lemma dateToISOString_eq_digits (t : Nat) :
    dateToISOString t
      = if t = 0 then "0" else String.mk ((Nat.digits 10 t).reverse.map Nat.digitChar) := by
  rw [dateToISOString]
  by_cases h : t = 0
  · rw [if_pos h, if_pos h]
  · rw [if_neg h, if_neg h, toDecimalAux_eq_digits t t (Nat.le_refl t)]

lemma dateToISOString_sep_free (t : Nat) : ∀ c ∈ (dateToISOString t).data, c ≠ '|' := by
  intro c hc
  by_cases h : t = 0
  · subst h
    have h0 : dateToISOString 0 = "0" := rfl
    rw [h0] at hc
    have hc0 : c = '0' := by simpa using hc
    subst hc0
    decide
  · rw [dateToISOString_eq_digits, if_neg h] at hc
    obtain ⟨d, hd, rfl⟩ := List.mem_map.mp hc
    exact digitChar_lt_ten_ne_sep d (mem_digits_lt_ten hd)

lemma dateToISOString_data_ne_nil (t : Nat) : (dateToISOString t).data ≠ [] := by
  rw [dateToISOString_eq_digits]
  by_cases h : t = 0
  · subst h
    decide
  · simp only [if_neg h]
    intro hcon
    have hrev : (Nat.digits 10 t).reverse = [] := List.map_eq_nil_iff.mp hcon
    exact (Nat.digits_ne_nil_iff_ne_zero.mpr h) (by simpa using hrev)

lemma dateToISOString_inj : ∀ t1 t2 : Nat, dateToISOString t1 = dateToISOString t2 → t1 = t2 := by
  have key : ∀ t : Nat, t ≠ 0 →
      ("0" : String) = String.mk ((Nat.digits 10 t).reverse.map Nat.digitChar) → False := by
    intro t ht h
    have hd : ['0'] = (Nat.digits 10 t).reverse.map Nat.digitChar := congrArg String.data h
    match hrev : (Nat.digits 10 t).reverse with
    | [] => rw [hrev] at hd; simp at hd
    | d :: rest =>
      rw [hrev] at hd
      simp only [List.map_cons, List.cons.injEq] at hd
      have hrest : rest = [] := by
        have := hd.2
        exact (List.map_eq_nil_iff.mp this.symm)
      have hd0 : d = 0 := by
        refine digitChar_eq_char_zero d ?_ hd.1.symm
        exact mem_digits_lt_ten (by rw [hrev]; simp)
      have hdig : Nat.digits 10 t = [0] := by
        have : (Nat.digits 10 t).reverse = [0] := by rw [hrev, hrest, hd0]
        simpa using congrArg List.reverse this
      have : t = 0 := by
        have hof := Nat.ofDigits_digits 10 t
        rw [hdig] at hof
        simpa [Nat.ofDigits] using hof.symm
      exact ht this
  intro t1 t2 h
  rw [dateToISOString_eq_digits, dateToISOString_eq_digits] at h
  by_cases h1 : t1 = 0 <;> by_cases h2 : t2 = 0
  · rw [h1, h2]
  · exact absurd (by simpa [h1, h2] using h) (fun hh => key t2 h2 hh)
  · exact absurd (by simpa [h1, h2] using h.symm) (fun hh => key t1 h1 hh)
  · simp only [if_neg h1, if_neg h2] at h
    have hd := congrArg String.data h
    have hmap : (Nat.digits 10 t1).reverse.map Nat.digitChar
        = (Nat.digits 10 t2).reverse.map Nat.digitChar := hd
    have hrev := map_digitChar_inj _ _ (fun a ha => mem_digits_lt_ten ha)
      (fun a ha => mem_digits_lt_ten ha) hmap
    exact Nat.digits.injective 10 (List.reverse_injective hrev)

/-! ### Injectivity of the hash serialization -/

/-- Absence of the join separator from a string. -/
def sepFree (s : String) : Prop := ∀ c ∈ s.data, c ≠ '|'

instance : DecidablePred sepFree := fun s => List.decidableBAll _ s.data

lemma append_sep_cancel :
    ∀ (l1 : List Char) {l2 r1 r2 : List Char},
      (∀ c ∈ l1, c ≠ '|') → (∀ c ∈ l2, c ≠ '|') →
      l1 ++ '|' :: r1 = l2 ++ '|' :: r2 → l1 = l2 ∧ r1 = r2 := by
  intro l1
  induction l1 with
  | nil =>
    intro l2 r1 r2 _ h2 h
    cases l2 with
    | nil => simpa using h
    | cons b u =>
      exfalso
      simp only [List.nil_append, List.cons_append, List.cons.injEq] at h
      exact h2 b (by simp) h.1.symm
  | cons a t ih =>
    intro l2 r1 r2 h1 h2 h
    cases l2 with
    | nil =>
      exfalso
      simp only [List.nil_append, List.cons_append, List.cons.injEq] at h
      exact h1 a (by simp) h.1
    | cons b u =>
      simp only [List.cons_append, List.cons.injEq] at h
      obtain ⟨ht, hr⟩ :=
        ih (fun c hc => h1 c (by simp [hc])) (fun c hc => h2 c (by simp [hc])) h.2
      exact ⟨by rw [h.1, ht], hr⟩

lemma serializeTodo_data (s : TodoSnapshot) (now : Nat) :
    (serializeTodo s now).data =
      (s.userId.getD "").data ++ '|' ::
        ((s.title.getD "").data ++ '|' ::
          ((s.description.getD "").data ++ '|' ::
            ((if s.isCompleted.getD false then "true" else "false").data ++ '|' ::
              ((s.priority.getD .medium).toValue.data ++ '|' ::
                (((s.dueDate.map dateToISOString).getD "").data ++ '|' ::
                  (dateToISOString (s.createdAt.getD now)).data))))) := by
  simp [serializeTodo, String.data_append]

lemma comp_render_sep_free : ∀ b : Bool, ∀ c ∈ (if b then "true" else "false").data, c ≠ '|' := by
  decide

lemma comp_render_inj :
    ∀ b1 b2 : Bool, (if b1 then "true" else "false").data
      = (if b2 then "true" else "false").data → b1 = b2 := by
  decide

lemma prio_render_sep_free : ∀ p : TodoPriority, ∀ c ∈ p.toValue.data, c ≠ '|' := by
  intro p
  cases p <;> decide

lemma prio_render_inj : ∀ p q : TodoPriority, p.toValue.data = q.toValue.data → p = q := by
  intro p q
  cases p <;> cases q <;> decide

lemma due_render_sep_free :
    ∀ o : Option Nat, ∀ c ∈ ((o.map dateToISOString).getD "").data, c ≠ '|' := by
  intro o
  cases o with
  | none => decide
  | some t => simpa using dateToISOString_sep_free t

lemma due_render_inj :
    ∀ o1 o2 : Option Nat,
      ((o1.map dateToISOString).getD "").data = ((o2.map dateToISOString).getD "").data →
      o1 = o2 := by
  intro o1 o2 h
  cases o1 with
  | none =>
    cases o2 with
    | none => rfl
    | some t2 => exact absurd (by simpa using h.symm) (dateToISOString_data_ne_nil t2)
  | some t1 =>
    cases o2 with
    | none => exact absurd (by simpa using h) (dateToISOString_data_ne_nil t1)
    | some t2 =>
      have : dateToISOString t1 = dateToISOString t2 := String.ext (by simpa using h)
      rw [dateToISOString_inj t1 t2 this]

/-- Full injectivity of the serialization on stored documents whose string
fields avoid the separator, shared by the hash claims and the state-machine
invariant development. -/
lemma serializeTodo_inj (d1 d2 : TodoDoc) (n1 n2 : Nat)
    (hu1 : sepFree d1.userId) (ht1 : sepFree d1.title)
    (hd1 : sepFree (d1.description.getD ""))
    (hu2 : sepFree d2.userId) (ht2 : sepFree d2.title)
    (hd2 : sepFree (d2.description.getD ""))
    (h : serializeTodo d1.snapshot n1 = serializeTodo d2.snapshot n2) :
    d1.userId = d2.userId ∧ d1.title = d2.title ∧
    d1.description.getD "" = d2.description.getD "" ∧
    d1.isCompleted = d2.isCompleted ∧ d1.priority = d2.priority ∧
    d1.dueDate = d2.dueDate ∧ d1.createdAt = d2.createdAt := by
  have hdata := congrArg String.data h
  rw [serializeTodo_data, serializeTodo_data] at hdata
  simp only [TodoDoc.snapshot, Option.getD_some, Option.map_some] at hdata
  obtain ⟨hu, hdata⟩ := append_sep_cancel _ hu1 hu2 hdata
  obtain ⟨ht, hdata⟩ := append_sep_cancel _ ht1 ht2 hdata
  obtain ⟨hd, hdata⟩ := append_sep_cancel _ hd1 hd2 hdata
  obtain ⟨hc, hdata⟩ := append_sep_cancel _
    (comp_render_sep_free d1.isCompleted) (comp_render_sep_free d2.isCompleted) hdata
  obtain ⟨hp, hdata⟩ := append_sep_cancel _
    (prio_render_sep_free d1.priority) (prio_render_sep_free d2.priority) hdata
  obtain ⟨hdue, hcreated⟩ := append_sep_cancel _
    (due_render_sep_free d1.dueDate) (due_render_sep_free d2.dueDate) hdata
  refine ⟨String.ext hu, String.ext ht, String.ext hd,
    comp_render_inj _ _ hc, prio_render_inj _ _ hp, ?_, ?_⟩
  · have := due_render_inj d1.dueDate d2.dueDate
    simp only [Option.map_map] at this
    exact this (by simpa using hdue)
  · exact dateToISOString_inj _ _ (String.ext hcreated)

/-! ### Generic facts about the single-document update primitive -/

namespace TodoRepository

lemma updateFirst_snd_of_find? {p : TodoDoc → Bool} {f : TodoDoc → TodoDoc} :
    ∀ {l : Store} {d : TodoDoc}, l.find? p = some d → (updateFirst p f l).2 = some (f d) := by
  intro l
  induction l with
  | nil => intro d h; simp [List.find?] at h
  | cons a t ih =>
    intro d h
    by_cases hp : p a
    · rw [List.find?_cons_of_pos _ hp] at h
      rw [updateFirst, if_pos hp]
      simp only [Option.some.injEq] at h
      rw [h]
    · rw [List.find?_cons_of_neg _ hp] at h
      rw [updateFirst, if_neg hp]
      exact ih h

lemma updateFirst_fst_pres {p : TodoDoc → Bool} {f : TodoDoc → TodoDoc} {P : TodoDoc → Prop}
    (hf : ∀ d, P d → P (f d)) :
    ∀ {l : Store}, (∀ d ∈ l, P d) → ∀ d ∈ (updateFirst p f l).1, P d := by
  intro l
  induction l with
  | nil => intro _ d hd; simp [updateFirst] at hd
  | cons a t ih =>
    intro hl d hd
    by_cases hp : p a
    · rw [updateFirst, if_pos hp] at hd
      rcases List.mem_cons.mp hd with h | h
      · rw [h]; exact hf a (hl a (by simp))
      · exact hl d (by simp [h])
    · rw [updateFirst, if_neg hp] at hd
      rcases List.mem_cons.mp hd with h | h
      · rw [h]; exact hl a (by simp)
      · exact ih (fun x hx => hl x (by simp [hx])) d h

lemma updateFirst_fst_establishes {p : TodoDoc → Bool} {f : TodoDoc → TodoDoc}
    {P : TodoDoc → Prop} (hf : ∀ d, P (f d)) :
    ∀ {l : Store}, (∀ d ∈ l, P d) → ∀ d ∈ (updateFirst p f l).1, P d :=
  updateFirst_fst_pres (fun d _ => hf d)

/-- After a successful `softDelete`, a store holding at most one document
with the target id no longer resolves that id through `findById`. -/
lemma findById_softDelete_self {todoId userId : String} {now : Nat} :
    ∀ {l : Store} {d0 : TodoDoc},
      l.countP (fun d => decide (d.mongoId = todoId)) ≤ 1 →
      findById l todoId userId = some d0 →
      findById (softDelete l todoId userId now).1 todoId userId = none := by
  intro l
  induction l with
  | nil => intro d0 _ h; simp [findById, List.find?] at h
  | cons a t ih =>
    intro d0 hcount hfind
    by_cases hp : matchesActive todoId userId a
    · have hid : a.mongoId = todoId := by
        have := hp
        unfold matchesActive at this
        simp only [Bool.and_eq_true, decide_eq_true_eq] at this
        exact this.1.1
      have hzero : t.countP (fun d => decide (d.mongoId = todoId)) = 0 := by
        rw [List.countP_cons] at hcount
        have hone : (if decide (a.mongoId = todoId) = true then 1 else 0) = 1 := by simp [hid]
        rw [hone] at hcount
        omega
      have hnone : ∀ x ∈ t, ¬ matchesActive todoId userId x = true := by
        intro x hx hmx
        have hxid : x.mongoId = todoId := by
          unfold matchesActive at hmx
          simp only [Bool.and_eq_true, decide_eq_true_eq] at hmx
          exact hmx.1.1
        have := List.countP_eq_zero.mp hzero x hx
        simp [hxid] at this
      rw [softDelete, updateFirst, if_pos hp]
      rw [findById]
      rw [List.find?_cons_of_neg]
      · exact List.find?_eq_none.mpr hnone
      · unfold matchesActive
        simp
    · rw [findById, List.find?_cons_of_neg _ hp] at hfind
      rw [softDelete, updateFirst, if_neg hp]
      rw [findById, List.find?_cons_of_neg _ hp]
      have hcount' : t.countP (fun d => decide (d.mongoId = todoId)) ≤ 1 := by
        rw [List.countP_cons] at hcount
        omega
      exact ih hcount' hfind

/-! ### The failed-sync query -/

/-- Ascending `updatedAt` order. -/
def updatedLE (a b : TodoDoc) : Prop := a.updatedAt ≤ b.updatedAt

lemma mem_insertByUpdated {d e : TodoDoc} :
    ∀ {l : List TodoDoc}, e ∈ insertByUpdated d l ↔ e = d ∨ e ∈ l := by
  intro l
  induction l with
  | nil => simp [insertByUpdated]
  | cons a t ih =>
    rw [insertByUpdated]
    by_cases h : d.updatedAt ≤ a.updatedAt
    · rw [if_pos h]
      simp
    · rw [if_neg h]
      simp only [List.mem_cons, ih]
      tauto

lemma mem_sortByUpdated {e : TodoDoc} :
    ∀ {l : List TodoDoc}, e ∈ sortByUpdated l ↔ e ∈ l := by
  intro l
  induction l with
  | nil => simp [sortByUpdated]
  | cons a t ih =>
    rw [sortByUpdated]
    rw [mem_insertByUpdated]
    simp [ih]

lemma length_insertByUpdated (d : TodoDoc) :
    ∀ l : List TodoDoc, (insertByUpdated d l).length = l.length + 1 := by
  intro l
  induction l with
  | nil => rfl
  | cons a t ih =>
    rw [insertByUpdated]
    by_cases h : d.updatedAt ≤ a.updatedAt
    · rw [if_pos h]; simp
    · rw [if_neg h]; simp [ih]

lemma length_sortByUpdated : ∀ l : List TodoDoc, (sortByUpdated l).length = l.length := by
  intro l
  induction l with
  | nil => rfl
  | cons a t ih => rw [sortByUpdated, length_insertByUpdated, ih]; rfl

lemma pairwise_insertByUpdated {d : TodoDoc} :
    ∀ {l : List TodoDoc}, l.Pairwise updatedLE → (insertByUpdated d l).Pairwise updatedLE := by
  intro l
  induction l with
  | nil => intro _; simp [insertByUpdated, updatedLE]
  | cons a t ih =>
    intro hp
    rw [insertByUpdated]
    rcases List.pairwise_cons.mp hp with ⟨ha, ht⟩
    by_cases h : d.updatedAt ≤ a.updatedAt
    · rw [if_pos h]
      refine List.pairwise_cons.mpr ⟨?_, hp⟩
      intro x hx
      rcases List.mem_cons.mp hx with hxa | hxt
      · rw [hxa]; exact h
      · exact Nat.le_trans h (ha x hxt)
    · rw [if_neg h]
      refine List.pairwise_cons.mpr ⟨?_, ih ht⟩
      intro x hx
      rcases mem_insertByUpdated.mp hx with hxd | hxt
      · rw [hxd]
        exact Nat.le_of_not_le h
      · exact ha x hxt

lemma pairwise_sortByUpdated : ∀ l : List TodoDoc, (sortByUpdated l).Pairwise updatedLE := by
  intro l
  induction l with
  | nil => simp [sortByUpdated]
  | cons a t ih => exact pairwise_insertByUpdated ih

end TodoRepository

/-! ### Preservation of the synced-hash invariant -/

lemma updateBlockchainStatus_failed_pres (digest : String → String) {s : Store}
    {todoId e : String} {now : Nat} {r : Store × Option TodoDoc}
    (hres : TodoRepository.updateBlockchainStatus s todoId .failed none (some e) now = .ok r)
    (h : ∀ d ∈ s, syncedHashInv digest d) : ∀ d ∈ r.1, syncedHashInv digest d := by
  by_cases he : e.isEmpty
  · have hdata : TodoRepository.buildStatusUpdate .failed none (some e) now
        = [("blockchainSyncStatus", TodoRepository.BsonVal.str "failed")] := by
      simp [TodoRepository.buildStatusUpdate, he, BlockchainSyncStatus.toValue]
    rw [TodoRepository.updateBlockchainStatus, hdata] at hres
    have hcast : TodoRepository.castUpdate
        [("blockchainSyncStatus", TodoRepository.BsonVal.str "failed")]
        = .ok [("blockchainSyncStatus", TodoRepository.BsonVal.str "failed")] := rfl
    rw [hcast] at hres
    simp only [Except.ok.injEq] at hres
    rw [← hres]
    rw [TodoRepository.findByIdAndUpdate]
    refine TodoRepository.updateFirst_fst_establishes ?_ h
    intro d hsync
    exfalso
    simp [TodoRepository.applyAssignment, BlockchainSyncStatus.ofValue] at hsync
  · exfalso
    have hcast : TodoRepository.castUpdate
        (TodoRepository.buildStatusUpdate .failed none (some e) now)
        = .error "CastError: Cast to Number failed at path syncRetryCount" := by
      simp [TodoRepository.buildStatusUpdate, he, TodoRepository.castUpdate,
        TodoRepository.todoSchemaTyOf, TodoRepository.castOk, BlockchainSyncStatus.toValue]
    rw [TodoRepository.updateBlockchainStatus, hcast] at hres
    exact Except.noConfusion hres

lemma commitSyncSuccess_pres (digest : String → String) (todo : TodoDoc) (tx : String)
    (now : Nat) {s : Store} (h : ∀ d ∈ s, syncedHashInv digest d) :
    ∀ d ∈ (TodoService.commitSyncSuccess s todo (generateTodoHash digest todo.snapshot now)
      tx now).1, syncedHashInv digest d := by
  rw [TodoService.commitSyncSuccess]
  refine TodoRepository.updateFirst_fst_establishes ?_ h
  intro d _
  exact ⟨todo.snapshot, rfl, rfl⟩

lemma syncToBlockchain_pres (digest : String → String) (chain : BlockchainService)
    (todo : TodoDoc) (now : Nat) {s : Store} (h : ∀ d ∈ s, syncedHashInv digest d) :
    ∀ d ∈ (TodoService.syncToBlockchain digest chain todo s now).store,
      syncedHashInv digest d := by
  rw [TodoService.syncToBlockchain]
  cases hc : chain.createTodo todo.mongoId (generateTodoHash digest todo.snapshot now) with
  | ok tx =>
    simpa using commitSyncSuccess_pres digest todo tx now h
  | error e =>
    cases hu : TodoRepository.updateBlockchainStatus s todo.mongoId .failed none (some e) now with
    | ok r => simpa [hu] using updateBlockchainStatus_failed_pres digest hu h
    | error castErr => simpa [hu] using h

lemma updateOnBlockchain_pres (digest : String → String) (chain : BlockchainService)
    (todo : TodoDoc) (now : Nat) {s : Store} (h : ∀ d ∈ s, syncedHashInv digest d) :
    ∀ d ∈ (TodoService.updateOnBlockchain digest chain todo s now).store,
      syncedHashInv digest d := by
  rw [TodoService.updateOnBlockchain]
  cases hc : chain.updateTodo todo.mongoId (generateTodoHash digest todo.snapshot now) with
  | ok tx =>
    simpa using commitSyncSuccess_pres digest todo tx now h
  | error e =>
    cases hu : TodoRepository.updateBlockchainStatus s todo.mongoId .failed none (some e) now with
    | ok r => simpa [hu] using updateBlockchainStatus_failed_pres digest hu h
    | error castErr => simpa [hu] using h

lemma createTodo_pres (digest : String → String) (chain : BlockchainService) (s : Store)
    (userId : String) (data : CreateTodoDTO) (todoId : String) (now nowSync : Nat)
    (h : ∀ d ∈ s, syncedHashInv digest d) :
    ∀ d ∈ (TodoService.createTodo digest chain s userId data todoId now nowSync).2.store,
      syncedHashInv digest d := by
  rw [TodoService.createTodo]
  simp only [TodoService.swallowRejection]
  refine syncToBlockchain_pres digest chain _ nowSync ?_
  intro d hd
  rcases List.mem_append.mp hd with hmem | hmem
  · exact h d hmem
  · have hd' := List.mem_singleton.mp hmem
    rw [hd']
    intro hsync
    exact absurd hsync (by simp)

lemma updateTodo_pres (digest : String → String) (chain : BlockchainService) (s : Store)
    (todoId userId : String) (data : UpdateTodoDTO) (now nowSync : Nat)
    {res : TodoDoc × SyncResult}
    (hres : TodoService.updateTodo digest chain s todoId userId data now nowSync = .ok res)
    (h : ∀ d ∈ s, syncedHashInv digest d) : ∀ d ∈ res.2.store, syncedHashInv digest d := by
  rw [TodoService.updateTodo] at hres
  cases hfind : TodoRepository.findById s todoId userId with
  | none =>
    simp only [TodoService.getTodoById, hfind] at hres
    exact Except.noConfusion hres
  | some t0 =>
    simp only [TodoService.getTodoById, hfind] at hres
    cases hup : (TodoRepository.update s todoId userId
        { title := data.title
          description := data.description
          isCompleted := data.isCompleted
          priority := data.priority
          dueDate := data.dueDate
          blockchainSyncStatus := some .pending } now).2 with
    | none =>
      simp only [hup] at hres
      exact Except.noConfusion hres
    | some u =>
      simp only [hup, Except.ok.injEq] at hres
      rw [← hres]
      refine updateOnBlockchain_pres digest chain u nowSync ?_
      rw [TodoRepository.update]
      refine TodoRepository.updateFirst_fst_establishes ?_ h
      intro d hsync
      exfalso
      simp [TodoRepository.applyPatch] at hsync

lemma toggleComplete_pres (digest : String → String) (chain : BlockchainService) (s : Store)
    (todoId userId : String) (now nowSync : Nat) {res : TodoDoc × SyncResult}
    (hres : TodoService.toggleComplete digest chain s todoId userId now nowSync = .ok res)
    (h : ∀ d ∈ s, syncedHashInv digest d) : ∀ d ∈ res.2.store, syncedHashInv digest d := by
  rw [TodoService.toggleComplete] at hres
  cases htog : (TodoRepository.toggleComplete s todoId userId now).2 with
  | none =>
    simp only [htog] at hres
    exact Except.noConfusion hres
  | some u =>
    simp only [htog, Except.ok.injEq] at hres
    rw [← hres]
    refine updateOnBlockchain_pres digest chain u nowSync ?_
    rw [TodoRepository.toggleComplete]
    cases hfind : TodoRepository.findById s todoId userId with
    | none => simpa using h
    | some t0 =>
      simp only
      refine TodoRepository.updateFirst_fst_pres ?_ h
      intro d hd
      exact hd

/-- Every store reachable without bare `updateBlockchainStatus` calls
satisfies the synced-hash invariant documentwise. -/
lemma reach_storeInv (digest : String → String) {b : Bool} {s : Store}
    (h : Reach digest b s) : b = false → ∀ d ∈ s, syncedHashInv digest d := by
  induction h with
  | base allowBare => intro _ d hd; simp at hd
  | create allowBare h chain userId data todoId now nowSync ih =>
    intro hb
    exact createTodo_pres digest chain _ userId data todoId now nowSync (ih hb)
  | update allowBare h chain todoId userId data now nowSync hres ih =>
    intro hb
    exact updateTodo_pres digest chain _ todoId userId data now nowSync hres (ih hb)
  | toggle allowBare h chain todoId userId now nowSync hres ih =>
    intro hb
    exact toggleComplete_pres digest chain _ todoId userId now nowSync hres (ih hb)
  | bareStatus h todoId status txHash error now hres ih =>
    intro hb
    exact absurd hb (by simp)

/-! ### Concrete fixtures used by witnesses and counterexamples -/

/-- The identity digest, used to close concrete statements (no property of
the digest is relevant to them). -/
def idDigest : String → String := fun s => s

/-- A chain behaviour in which every transaction fails. -/
def failChain : BlockchainService :=
  { createTodo := fun _ _ => .error "boom"
    updateTodo := fun _ _ => .error "boom"
    deleteTodo := fun _ => .error "boom"
    restoreTodo := fun _ => .error "boom"
    verifyTodo := fun _ _ => .error "boom"
    getTodo := fun _ => .error "boom" }

/-- A chain behaviour in which every transaction succeeds. -/
def okChain : BlockchainService :=
  { createTodo := fun _ _ => .ok "0xtx"
    updateTodo := fun _ _ => .ok "0xtx"
    deleteTodo := fun _ => .ok "0xtx"
    restoreTodo := fun _ => .ok "0xtx"
    verifyTodo := fun _ _ => .ok true
    getTodo := fun _ => .ok { todoHash := "0xdead", owner := "0xowner",
                              timestamp := 3, isDeleted := false } }

/-- A freshly created, never-synced document. -/
def pendingDoc : TodoDoc :=
  { mongoId := "a"
    userId := "u"
    title := "t"
    description := none
    isCompleted := false
    completedAt := none
    priority := .medium
    dueDate := none
    blockchainHash := none
    blockchainTxHash := none
    blockchainSyncStatus := .pending
    blockchainSyncError := none
    blockchainSyncedAt := none
    syncRetryCount := 0
    isDeleted := false
    deletedAt := none
    createdAt := 0
    updatedAt := 0 }

/-- A successfully synced document. -/
def syncedDoc : TodoDoc :=
  { pendingDoc with
    blockchainHash := some "0xu|t||false|medium||0"
    blockchainTxHash := some "0xtx"
    blockchainSyncStatus := .synced
    blockchainSyncedAt := some 1
    updatedAt := 1
    ghostLastSynced := some pendingDoc.snapshot }

/-- A soft-deleted document whose sync previously failed. -/
def deletedFailedDoc : TodoDoc :=
  { pendingDoc with
    blockchainSyncStatus := .failed
    blockchainSyncError := some "boom"
    isDeleted := true
    deletedAt := some 5
    updatedAt := 5 }

/-- The state produced by recording `synced` through a bare
`updateBlockchainStatus` call on a never-synced document. -/
def bareSyncedDoc : TodoDoc :=
  { pendingDoc with
    blockchainTxHash := some "0xabc"
    blockchainSyncStatus := .synced
    blockchainSyncedAt := some 2
    updatedAt := 2 }

/-! ### Claim C2 -/

/-- Claim C2: `generateTodoHash` is a pure, deterministic function of the
seven semantic fields of a stored todo snapshot: two calls on the same
unchanged snapshot at different times (different `new Date()` fallbacks)
return byte-identical digests, for any digest primitive. -/
theorem c2_hash_deterministic :
    ∀ (digest : String → String) (d : TodoDoc) (n1 n2 : Nat),
      generateTodoHash digest d.snapshot n1 = generateTodoHash digest d.snapshot n2 :=
  fun _ _ _ _ => rfl

/-! ### Claim C3 -/

/-- Claim C3 (code bug): whenever `updateBlockchainStatus` is called with a
non-empty error message, the malformed `syncRetryCount: { $inc: 1 }`
assignment makes the whole update be rejected with a `CastError`: the
retry count is not incremented by 1, and the failed status and error
message are not recorded either. -/
theorem c3_retry_count_never_incremented :
    ∀ (store : Store) (todoId : String) (status : BlockchainSyncStatus)
      (txHash : Option String) (e : String) (now : Nat), e ≠ "" →
      TodoRepository.updateBlockchainStatus store todoId status txHash (some e) now
        = .error "CastError: Cast to Number failed at path syncRetryCount" := by
  intro store todoId status txHash e now he
  have hie : e.isEmpty = false := by
    cases h : e.isEmpty
    · rfl
    · exact absurd ((String.isEmpty_iff e).mp h) he
  rw [TodoRepository.updateBlockchainStatus]
  have hcast : TodoRepository.castUpdate
      (TodoRepository.buildStatusUpdate status txHash (some e) now)
      = .error "CastError: Cast to Number failed at path syncRetryCount" := by
    rw [TodoRepository.castUpdate, if_neg]
    simp only [TodoRepository.buildStatusUpdate, hie, Bool.false_eq_true, if_false,
      List.all_append, List.all_cons, List.all_nil]
    simp [TodoRepository.todoSchemaTyOf, TodoRepository.castOk]
  rw [hcast]

/-- Witness for C3 at a concrete store and error message. -/
theorem c3_witness :
    TodoRepository.updateBlockchainStatus [pendingDoc] "a" .failed none (some "timeout") 9
      = .error "CastError: Cast to Number failed at path syncRetryCount" :=
  c3_retry_count_never_incremented [pendingDoc] "a" .failed none "timeout" 9 (by decide)

/-! ### Claim C6 -/

/-- Counterexample to claim C6: a never-synced todo (`blockchainHash` was
never recorded) is synced via `updateOnBlockchain`, and the orchestrator
still issues the ledger `update` call — not the claimed `create` fallback —
so the attempt fails and the store is left unchanged. -/
theorem c6_counterexample :
    pendingDoc.blockchainHash = none ∧
    (TodoService.updateOnBlockchain idDigest failChain pendingDoc [pendingDoc] 7).chainCalls
      = [ChainCall.update "a" "0xu|t||false|medium||0"] ∧
    (TodoService.updateOnBlockchain idDigest failChain pendingDoc [pendingDoc] 7).store
      = [pendingDoc] := by
  refine ⟨rfl, ?_, ?_⟩ <;> decide

/-- Claim C6 as amended: the orchestrator never falls back to the ledger
`create` operation — every sync funnelled through `updateOnBlockchain`
issues exactly one ledger `update` call, whether or not the todo was ever
successfully synced. -/
theorem c6_amended_always_update_call :
    ∀ (digest : String → String) (chain : BlockchainService) (todo : TodoDoc)
      (store : Store) (now : Nat),
      (TodoService.updateOnBlockchain digest chain todo store now).chainCalls
        = [ChainCall.update todo.mongoId (generateTodoHash digest todo.snapshot now)] := by
  intro digest chain todo store now
  rw [TodoService.updateOnBlockchain]
  cases hc : chain.updateTodo todo.mongoId (generateTodoHash digest todo.snapshot now) with
  | ok tx => rfl
  | error e =>
    cases hu : TodoRepository.updateBlockchainStatus store todo.mongoId .failed
        none (some e) now with
    | ok r => simp [hu]
    | error castErr => simp [hu]

/-! ### Claim C7 -/

/-- Counterexample to claim C7: a soft-deleted document with `failed`
status and a retry count below the maximum is not returned by
`getFailedSyncs`, so the result is not exactly the set the claim
describes. -/
theorem c7_counterexample :
    TodoRepository.getFailedSyncs [deletedFailedDoc] 10 = [] ∧
    deletedFailedDoc.blockchainSyncStatus = .failed ∧
    deletedFailedDoc.syncRetryCount < 10 := by
  refine ⟨?_, rfl, ?_⟩ <;> decide

/-- Claim C7 as amended: `getFailedSyncs(limit)` returns exactly the todos
with `blockchainSyncStatus = failed`, `syncRetryCount < 10` and — in
addition to what the claim states — `isDeleted = false`, ordered
oldest-`updatedAt` first and capped at `limit`. -/
theorem c7_amended_failed_sync_query :
    ∀ (store : Store) (limit : Nat),
      (TodoRepository.getFailedSyncs store limit).length ≤ limit ∧
      (∀ d ∈ TodoRepository.getFailedSyncs store limit,
        d.blockchainSyncStatus = .failed ∧ d.syncRetryCount < 10 ∧ d.isDeleted = false) ∧
      (TodoRepository.getFailedSyncs store limit).Pairwise TodoRepository.updatedLE ∧
      ((store.filter TodoRepository.failedSyncPred).length ≤ limit →
        ∀ d ∈ store, TodoRepository.failedSyncPred d →
          d ∈ TodoRepository.getFailedSyncs store limit) := by
  intro store limit
  refine ⟨?_, ?_, ?_, ?_⟩
  · rw [TodoRepository.getFailedSyncs]
    exact List.length_take_le _ _
  · intro d hd
    have hmem : d ∈ TodoRepository.sortByUpdated (store.filter TodoRepository.failedSyncPred) :=
      List.mem_of_mem_take (by simpa [TodoRepository.getFailedSyncs] using hd)
    have hpred := (List.mem_filter.mp (TodoRepository.mem_sortByUpdated.mp hmem)).2
    unfold TodoRepository.failedSyncPred at hpred
    simp only [Bool.and_eq_true, decide_eq_true_eq, Bool.not_eq_true'] at hpred
    exact ⟨hpred.1.1, hpred.1.2, hpred.2⟩
  · rw [TodoRepository.getFailedSyncs]
    exact (TodoRepository.pairwise_sortByUpdated _).sublist (List.take_sublist _ _)
  · intro hlen d hd hpred
    rw [TodoRepository.getFailedSyncs, List.take_of_length_le]
    · exact TodoRepository.mem_sortByUpdated.mpr (List.mem_filter.mpr ⟨hd, hpred⟩)
    · rw [TodoRepository.length_sortByUpdated]
      exact hlen

/-- Witness for C7 at a concrete store: a live failed document under the
retry cap is returned by the query. -/
theorem c7_witness :
    TodoRepository.failedSyncPred { pendingDoc with blockchainSyncStatus := .failed } = true ∧
    { pendingDoc with blockchainSyncStatus := .failed }
      ∈ TodoRepository.getFailedSyncs [{ pendingDoc with blockchainSyncStatus := .failed }] 10 := by
  refine ⟨by decide, ?_⟩
  exact (c7_amended_failed_sync_query
      [{ pendingDoc with blockchainSyncStatus := .failed }] 10).2.2.2
    (by decide) _ (by decide) (by decide)

/-! ### Claim C8 -/

/-- Counterexample to claim C8: the separator `'|'` can occur inside field
values, so the joined serialization is not injective on semantic fields —
two snapshots differing in title and description serialize identically. -/
theorem c8_counterexample :
    serializeTodo ⟨some "u", some "a|b", some "c", some false, some .medium, none, some 5⟩ 0
      = serializeTodo ⟨some "u", some "a", some "b|c", some false, some .medium, none, some 5⟩ 0
    ∧ (⟨some "u", some "a|b", some "c", some false, some .medium, none, some 5⟩ : TodoSnapshot)
      ≠ ⟨some "u", some "a", some "b|c", some false, some .medium, none, some 5⟩ := by
  refine ⟨?_, ?_⟩ <;> decide

/-- Claim C8 as amended: on stored documents whose owner, title and
description avoid the separator character, the fixed-order serialization is
injective on the seven semantic field values (description up to the
serializer's identification of absent with empty). -/
theorem c8_amended_serialization_injective :
    ∀ (d1 d2 : TodoDoc) (n1 n2 : Nat),
      sepFree d1.userId → sepFree d1.title → sepFree (d1.description.getD "") →
      sepFree d2.userId → sepFree d2.title → sepFree (d2.description.getD "") →
      serializeTodo d1.snapshot n1 = serializeTodo d2.snapshot n2 →
      d1.userId = d2.userId ∧ d1.title = d2.title ∧
      d1.description.getD "" = d2.description.getD "" ∧
      d1.isCompleted = d2.isCompleted ∧ d1.priority = d2.priority ∧
      d1.dueDate = d2.dueDate ∧ d1.createdAt = d2.createdAt :=
  fun d1 d2 n1 n2 h1 h2 h3 h4 h5 h6 h =>
    serializeTodo_inj d1 d2 n1 n2 h1 h2 h3 h4 h5 h6 h

/-- Witness for C8: two documents differing only in their sync envelopes
serialize identically, and the theorem recovers the semantic equality. -/
theorem c8_witness :
    pendingDoc.userId = syncedDoc.userId ∧ pendingDoc.title = syncedDoc.title ∧
    pendingDoc.description.getD "" = syncedDoc.description.getD "" ∧
    pendingDoc.isCompleted = syncedDoc.isCompleted ∧
    pendingDoc.priority = syncedDoc.priority ∧
    pendingDoc.dueDate = syncedDoc.dueDate ∧ pendingDoc.createdAt = syncedDoc.createdAt :=
  c8_amended_serialization_injective pendingDoc syncedDoc 3 9
    (by decide) (by decide) (by decide) (by decide) (by decide) (by decide) (by decide)

/-! ### Claim C4 -/

namespace TodoRepository

lemma updateFirst_snd_shape {p : TodoDoc → Bool} {f : TodoDoc → TodoDoc} :
    ∀ {l : Store} {u : TodoDoc}, (updateFirst p f l).2 = some u → ∃ d, u = f d := by
  intro l
  induction l with
  | nil => intro u h; simp [updateFirst] at h
  | cons a t ih =>
    intro u h
    by_cases hp : p a
    · rw [updateFirst, if_pos hp] at h
      simp only [Option.some.injEq] at h
      exact ⟨a, h.symm⟩
    · rw [updateFirst, if_neg hp] at h
      exact ih h

lemma toggleComplete_snd {store : Store} {todoId userId : String} {now : Nat} {d0 : TodoDoc}
    (hfind : findById store todoId userId = some d0) :
    (toggleComplete store todoId userId now).2
      = some
        { d0 with
          isCompleted := !d0.isCompleted
          completedAt := if !d0.isCompleted then some now else none
          updatedAt := now } := by
  rw [toggleComplete, hfind]
  exact updateFirst_snd_of_find? hfind

end TodoRepository

/-- Counterexample to claim C4: toggling completion on a synced todo
returns the todo still marked `synced` — the toggle path never resets the
sync status to `pending`. -/
theorem c4_counterexample :
    (TodoService.toggleComplete idDigest failChain [syncedDoc] "a" "u" 5 6).map
        (fun r => r.1.blockchainSyncStatus) = .ok .synced ∧
    BlockchainSyncStatus.synced ≠ .pending := by
  refine ⟨by decide, by decide⟩

/-- Claim C4 as amended: `updateTodo` returns the todo with
`blockchainSyncStatus = pending`, but `toggleComplete` returns it with its
previous sync status unchanged. -/
theorem c4_amended_update_resets_toggle_preserves (digest : String → String) :
    (∀ (chain : BlockchainService) (store : Store) (todoId userId : String)
       (data : UpdateTodoDTO) (now nowSync : Nat) (res : TodoDoc × SyncResult),
       TodoService.updateTodo digest chain store todoId userId data now nowSync = .ok res →
       res.1.blockchainSyncStatus = .pending) ∧
    (∀ (chain : BlockchainService) (store : Store) (todoId userId : String)
       (now nowSync : Nat) (res : TodoDoc × SyncResult) (d0 : TodoDoc),
       TodoRepository.findById store todoId userId = some d0 →
       TodoService.toggleComplete digest chain store todoId userId now nowSync = .ok res →
       res.1.blockchainSyncStatus = d0.blockchainSyncStatus) := by
  constructor
  · intro chain store todoId userId data now nowSync res hres
    rw [TodoService.updateTodo] at hres
    cases hfind : TodoRepository.findById store todoId userId with
    | none =>
      simp only [TodoService.getTodoById, hfind] at hres
      exact Except.noConfusion hres
    | some t0 =>
      simp only [TodoService.getTodoById, hfind] at hres
      cases hup : (TodoRepository.update store todoId userId
          { title := data.title
            description := data.description
            isCompleted := data.isCompleted
            priority := data.priority
            dueDate := data.dueDate
            blockchainSyncStatus := some .pending } now).2 with
      | none =>
        simp only [hup] at hres
        exact Except.noConfusion hres
      | some u =>
        simp only [hup, Except.ok.injEq] at hres
        obtain ⟨d, hd⟩ := TodoRepository.updateFirst_snd_shape hup
        rw [← hres]
        rw [hd]
        rfl
  · intro chain store todoId userId now nowSync res d0 hfind hres
    rw [TodoService.toggleComplete] at hres
    simp only [TodoRepository.toggleComplete_snd hfind, Except.ok.injEq] at hres
    rw [← hres]

/-- The document produced by the concrete `updateTodo` witness call. -/
def c4UpdatedDoc : TodoDoc := { pendingDoc with title := "t2", updatedAt := 4 }

/-- Full result of the concrete `updateTodo` witness call. -/
def c4UpdRes : TodoDoc × SyncResult :=
  (c4UpdatedDoc,
   { store := [c4UpdatedDoc]
     chainCalls := [.update "a" "0xu|t2||false|medium||0"]
     statusCalls := [⟨"a", .failed, none, some "boom"⟩]
     rejected := none })

/-- The document produced by the concrete `toggleComplete` witness call. -/
def c4ToggledDoc : TodoDoc :=
  { syncedDoc with isCompleted := true, completedAt := some 5, updatedAt := 5 }

/-- Full result of the concrete `toggleComplete` witness call. -/
def c4TogRes : TodoDoc × SyncResult :=
  (c4ToggledDoc,
   { store := [c4ToggledDoc]
     chainCalls := [.update "a" "0xu|t||true|medium||0"]
     statusCalls := [⟨"a", .failed, none, some "boom"⟩]
     rejected := none })

/-- Witness for C4 exercising both conjuncts at concrete inputs. -/
theorem c4_witness :
    TodoService.updateTodo idDigest failChain [pendingDoc] "a" "u" { title := some "t2" } 4 5
      = .ok c4UpdRes ∧
    c4UpdRes.1.blockchainSyncStatus = .pending ∧
    TodoService.toggleComplete idDigest failChain [syncedDoc] "a" "u" 5 6 = .ok c4TogRes ∧
    c4TogRes.1.blockchainSyncStatus = syncedDoc.blockchainSyncStatus := by
  refine ⟨by decide, ?_, by decide, ?_⟩
  · exact (c4_amended_update_resets_toggle_preserves idDigest).1 failChain [pendingDoc]
      "a" "u" { title := some "t2" } 4 5 c4UpdRes (by decide)
  · exact (c4_amended_update_resets_toggle_preserves idDigest).2 failChain [syncedDoc]
      "a" "u" 5 6 c4TogRes syncedDoc (by decide) (by decide)

/-! ### Claim C5 -/

/-- Counterexample to claim C5: when the ledger delete throws, `deleteTodo`
returns successfully, no `updateBlockchainStatus` call is issued, and the
sync envelope records neither the failed status nor the error message. -/
theorem c5_counterexample :
    failChain.deleteTodo "a" = .error "boom" ∧
    (TodoService.deleteTodo failChain [pendingDoc] "a" "u" 9).map
      (fun r => (r.2.statusCalls, r.2.rejected)) = .ok ([], none) ∧
    (TodoService.deleteTodo failChain [pendingDoc] "a" "u" 9).map
      (fun r => r.2.store.map (fun d => (d.blockchainSyncStatus, d.blockchainSyncError)))
      = .ok [(.pending, none)] := by
  refine ⟨rfl, by decide, by decide⟩

/-- Claim C5 as amended: every ledger exception during a background sync is
caught and never propagated (the value returned to the triggering caller is
independent of the chain behaviour); for create and update attempts the
failure is passed to `updateBlockchainStatus` with status `failed` and the
error message (the write itself being rejected by the retry-count cast
defect); delete and restore attempts only log — they never touch the
envelope. -/
theorem c5_amended_error_handling (digest : String → String) :
    (∀ (chain : BlockchainService) (todoId : String) (store : Store),
       TodoService.deleteOnBlockchain chain todoId store
         = { store := store, chainCalls := [.delete todoId], statusCalls := [],
             rejected := none }) ∧
    (∀ (chain : BlockchainService) (todoId : String) (store : Store),
       TodoService.restoreOnBlockchain chain todoId store
         = { store := store, chainCalls := [.restore todoId], statusCalls := [],
             rejected := none }) ∧
    (∀ (chain : BlockchainService) (todo : TodoDoc) (store : Store) (now : Nat) (e : String),
       chain.createTodo todo.mongoId (generateTodoHash digest todo.snapshot now) = .error e →
       (TodoService.syncToBlockchain digest chain todo store now).statusCalls
         = [⟨todo.mongoId, .failed, none, some e⟩]) ∧
    (∀ (chain : BlockchainService) (todo : TodoDoc) (store : Store) (now : Nat) (e : String),
       chain.updateTodo todo.mongoId (generateTodoHash digest todo.snapshot now) = .error e →
       (TodoService.updateOnBlockchain digest chain todo store now).statusCalls
         = [⟨todo.mongoId, .failed, none, some e⟩]) ∧
    (∀ (ca cb : BlockchainService) (store : Store) (userId : String) (data : CreateTodoDTO)
       (todoId : String) (now nowSync : Nat),
       (TodoService.createTodo digest ca store userId data todoId now nowSync).1
         = (TodoService.createTodo digest cb store userId data todoId now nowSync).1) ∧
    (∀ (ca cb : BlockchainService) (store : Store) (todoId userId : String)
       (data : UpdateTodoDTO) (now nowSync : Nat),
       (TodoService.updateTodo digest ca store todoId userId data now nowSync).map Prod.fst
         = (TodoService.updateTodo digest cb store todoId userId data now nowSync).map
             Prod.fst) ∧
    (∀ (ca cb : BlockchainService) (store : Store) (todoId userId : String) (now nowSync : Nat),
       (TodoService.toggleComplete digest ca store todoId userId now nowSync).map Prod.fst
         = (TodoService.toggleComplete digest cb store todoId userId now nowSync).map
             Prod.fst) ∧
    (∀ (ca cb : BlockchainService) (store : Store) (todoId userId : String) (now : Nat),
       (TodoService.deleteTodo ca store todoId userId now).map Prod.fst
         = (TodoService.deleteTodo cb store todoId userId now).map Prod.fst) ∧
    (∀ (ca cb : BlockchainService) (store : Store) (todoId userId : String) (now : Nat),
       (TodoService.restoreTodo ca store todoId userId now).map Prod.fst
         = (TodoService.restoreTodo cb store todoId userId now).map Prod.fst) := by
  refine ⟨?_, ?_, ?_, ?_, ?_, ?_, ?_, ?_, ?_⟩
  · intro chain todoId store
    rw [TodoService.deleteOnBlockchain]
    cases chain.deleteTodo todoId <;> rfl
  · intro chain todoId store
    rw [TodoService.restoreOnBlockchain]
    cases chain.restoreTodo todoId <;> rfl
  · intro chain todo store now e hc
    rw [TodoService.syncToBlockchain]
    simp only [hc]
    cases hu : TodoRepository.updateBlockchainStatus store todo.mongoId .failed
        none (some e) now with
    | ok r => simp [hu]
    | error castErr => simp [hu]
  · intro chain todo store now e hc
    rw [TodoService.updateOnBlockchain]
    simp only [hc]
    cases hu : TodoRepository.updateBlockchainStatus store todo.mongoId .failed
        none (some e) now with
    | ok r => simp [hu]
    | error castErr => simp [hu]
  · intro ca cb store userId data todoId now nowSync
    rfl
  · intro ca cb store todoId userId data now nowSync
    rw [TodoService.updateTodo, TodoService.updateTodo]
    cases hfind : TodoRepository.findById store todoId userId with
    | none => simp [TodoService.getTodoById, hfind]
    | some t0 =>
      simp only [TodoService.getTodoById, hfind]
      cases hup : (TodoRepository.update store todoId userId
          { title := data.title
            description := data.description
            isCompleted := data.isCompleted
            priority := data.priority
            dueDate := data.dueDate
            blockchainSyncStatus := some .pending } now).2 with
      | none => simp [hup]
      | some u => simp [hup, Except.map]
  · intro ca cb store todoId userId now nowSync
    rw [TodoService.toggleComplete, TodoService.toggleComplete]
    cases htog : (TodoRepository.toggleComplete store todoId userId now).2 with
    | none => simp [htog]
    | some u => simp [htog, Except.map]
  · intro ca cb store todoId userId now
    rw [TodoService.deleteTodo, TodoService.deleteTodo]
    cases hfind : TodoRepository.findById store todoId userId with
    | none => simp [TodoService.getTodoById, hfind]
    | some t0 =>
      simp only [TodoService.getTodoById, hfind]
      cases hsd : (TodoRepository.softDelete store todoId userId now).2 with
      | none => simp [hsd]
      | some u => simp [hsd, Except.map]
  · intro ca cb store todoId userId now
    rw [TodoService.restoreTodo, TodoService.restoreTodo]
    cases hre : (TodoRepository.restore store todoId userId now).2 with
    | none => simp [hre]
    | some u => simp [hre, Except.map]

/-- Witness for C5 at concrete inputs, exercising the hypothesis-bearing
conjuncts. -/
theorem c5_witness :
    (TodoService.syncToBlockchain idDigest failChain pendingDoc [pendingDoc] 1).statusCalls
      = [⟨"a", .failed, none, some "boom"⟩] ∧
    (TodoService.updateOnBlockchain idDigest failChain pendingDoc [pendingDoc] 1).statusCalls
      = [⟨"a", .failed, none, some "boom"⟩] ∧
    TodoService.deleteOnBlockchain failChain "a" [pendingDoc]
      = { store := [pendingDoc], chainCalls := [.delete "a"], statusCalls := [],
          rejected := none } :=
  ⟨(c5_amended_error_handling idDigest).2.2.1 failChain pendingDoc [pendingDoc] 1 "boom" rfl,
   (c5_amended_error_handling idDigest).2.2.2.1 failChain pendingDoc [pendingDoc] 1 "boom" rfl,
   (c5_amended_error_handling idDigest).1 failChain "a" [pendingDoc]⟩

/-! ### Claim C9 -/

/-- Claim C9: `verifyTodo` fails with `NotFound` when the owner-scoped
lookup misses; fails with the bad-request `NotSynced` error whenever the
status is not `synced`; and otherwise returns a result whose `mongoHash` is
recomputed fresh from the current stored fields and whose `isValid` is the
contract-side comparison of that fresh hash. -/
theorem c9_verify_todo_contract (digest : String → String) (chain : BlockchainService)
    (store : Store) (todoId userId : String) (now : Nat) :
    (TodoRepository.findById store todoId userId = none →
      TodoService.verifyTodo digest chain store todoId userId now
        = .error (.notFound "Todo not found")) ∧
    (∀ todo, TodoRepository.findById store todoId userId = some todo →
      todo.blockchainSyncStatus ≠ .synced →
      TodoService.verifyTodo digest chain store todoId userId now
        = .error (.badRequest "Todo not yet synced to blockchain")) ∧
    (∀ todo meta b, TodoRepository.findById store todoId userId = some todo →
      todo.blockchainSyncStatus = .synced →
      chain.getTodo todoId = .ok meta →
      chain.verifyTodo todoId (generateTodoHash digest todo.snapshot now) = .ok b →
      TodoService.verifyTodo digest chain store todoId userId now
        = .ok { isValid := b
                mongoHash := generateTodoHash digest todo.snapshot now
                blockchainHash := meta.todoHash
                owner := meta.owner
                timestamp := meta.timestamp
                chainIsDeleted := meta.isDeleted }) := by
  refine ⟨?_, ?_, ?_⟩
  · intro hfind
    rw [TodoService.verifyTodo]
    simp [TodoService.getTodoById, hfind]
  · intro todo hfind hns
    rw [TodoService.verifyTodo]
    simp only [TodoService.getTodoById, hfind]
    rw [if_pos hns]
  · intro todo meta b hfind hs hget hver
    rw [TodoService.verifyTodo]
    simp only [TodoService.getTodoById, hfind]
    rw [if_neg (by simp [hs])]
    simp only [hget, hver]

/-- Witness for C9: a synced document verifies against a concrete chain. -/
theorem c9_witness :
    TodoService.verifyTodo idDigest okChain [syncedDoc] "a" "u" 4
      = .ok { isValid := true
              mongoHash := "0xu|t||false|medium||0"
              blockchainHash := "0xdead"
              owner := "0xowner"
              timestamp := 3
              chainIsDeleted := false } :=
  (c9_verify_todo_contract idDigest okChain [syncedDoc] "a" "u" 4).2.2 syncedDoc
    { todoHash := "0xdead", owner := "0xowner", timestamp := 3, isDeleted := false } true
    (by decide) rfl rfl rfl

/-! ### Claim C10 -/

/-- Claim C10: a soft-deleted todo is invisible to every owner-scoped
operation that resolves it through `findById` — `getTodoById`,
`updateTodo`, `toggleComplete`, `verifyTodo` and `deleteTodo` all fail with
`NotFound`; in particular a second `deleteTodo` on the same todo fails with
`NotFound`, so deletion is not idempotent. -/
theorem c10_soft_deleted_not_found (digest : String → String) :
    (∀ (chain : BlockchainService) (store : Store) (todoId userId : String)
       (data : UpdateTodoDTO) (now nowSync : Nat),
       (∀ d ∈ store, d.mongoId = todoId → d.userId = userId → d.isDeleted = true) →
       TodoService.getTodoById store todoId userId = .error (.notFound "Todo not found") ∧
       TodoService.updateTodo digest chain store todoId userId data now nowSync
         = .error (.notFound "Todo not found") ∧
       TodoService.toggleComplete digest chain store todoId userId now nowSync
         = .error (.notFound "Todo not found") ∧
       TodoService.verifyTodo digest chain store todoId userId now
         = .error (.notFound "Todo not found") ∧
       TodoService.deleteTodo chain store todoId userId now
         = .error (.notFound "Todo not found")) ∧
    (∀ (chain chain2 : BlockchainService) (store : Store) (todoId userId : String)
       (now now2 : Nat) (res : Unit × SyncResult),
       store.countP (fun d => decide (d.mongoId = todoId)) ≤ 1 →
       TodoService.deleteTodo chain store todoId userId now = .ok res →
       TodoService.deleteTodo chain2 res.2.store todoId userId now2
         = .error (.notFound "Todo not found")) := by
  constructor
  · intro chain store todoId userId data now nowSync hdel
    have hfind : TodoRepository.findById store todoId userId = none := by
      rw [TodoRepository.findById]
      apply List.find?_eq_none.mpr
      intro x hx hmx
      unfold matchesActive at hmx
      simp only [Bool.and_eq_true, decide_eq_true_eq, Bool.not_eq_true'] at hmx
      have hxd := hdel x hx hmx.1.1 hmx.1.2
      rw [hxd] at hmx
      exact absurd hmx.2 (by simp)
    refine ⟨?_, ?_, ?_, ?_, ?_⟩
    · rw [TodoService.getTodoById, hfind]
    · rw [TodoService.updateTodo]
      simp [TodoService.getTodoById, hfind]
    · rw [TodoService.toggleComplete, TodoRepository.toggleComplete, hfind]
    · rw [TodoService.verifyTodo]
      simp [TodoService.getTodoById, hfind]
    · rw [TodoService.deleteTodo]
      simp [TodoService.getTodoById, hfind]
  · intro chain chain2 store todoId userId now now2 res hcount hok
    rw [TodoService.deleteTodo] at hok
    cases hfind : TodoRepository.findById store todoId userId with
    | none =>
      simp only [TodoService.getTodoById, hfind] at hok
      exact Except.noConfusion hok
    | some d0 =>
      simp only [TodoService.getTodoById, hfind] at hok
      cases hsd : (TodoRepository.softDelete store todoId userId now).2 with
      | none =>
        simp only [hsd] at hok
        exact Except.noConfusion hok
      | some x =>
        simp only [hsd, Except.ok.injEq] at hok
        have hstore : res.2.store = (TodoRepository.softDelete store todoId userId now).1 := by
          rw [← hok]
          show (TodoService.deleteOnBlockchain chain todoId
            (TodoRepository.softDelete store todoId userId now).1).store = _
          rw [TodoService.deleteOnBlockchain]
          cases chain.deleteTodo todoId <;> rfl
        have hfind2 : TodoRepository.findById res.2.store todoId userId = none := by
          rw [hstore]
          exact TodoRepository.findById_softDelete_self hcount hfind
        rw [TodoService.deleteTodo]
        simp [TodoService.getTodoById, hfind2]

/-- The fixture document after a concrete soft delete at time 9. -/
def c10DeletedDoc : TodoDoc :=
  { pendingDoc with isDeleted := true, deletedAt := some 9, updatedAt := 9 }

/-- Witness for C10: the concrete soft-deleted fixture is invisible to all
five operations, and a concrete delete-then-delete sequence fails with
`NotFound` the second time. -/
theorem c10_witness :
    TodoService.getTodoById [deletedFailedDoc] "a" "u" = .error (.notFound "Todo not found") ∧
    TodoService.deleteTodo okChain [c10DeletedDoc] "a" "u" 11
      = .error (.notFound "Todo not found") := by
  constructor
  · exact ((c10_soft_deleted_not_found idDigest).1 failChain [deletedFailedDoc] "a" "u"
      {} 1 2 (by decide)).1
  · exact (c10_soft_deleted_not_found idDigest).2 failChain okChain [pendingDoc] "a" "u" 9 11
      ((), { store := [c10DeletedDoc], chainCalls := [.delete "a"], statusCalls := [],
             rejected := none })
      (by decide) (by decide)

/-! ### Claim C1 -/

/-- Counterexample to claim C1: a bare `updateBlockchainStatus` call with
status `synced` is among the listed operations, succeeds, and marks a
never-synced todo `synced` without writing any `blockchainHash` — reaching
a state where the status is `synced` and the hash is null. -/
theorem c1_counterexample :
    Reach idDigest true [bareSyncedDoc] ∧
    bareSyncedDoc.blockchainSyncStatus = .synced ∧
    bareSyncedDoc.blockchainHash = none := by
  refine ⟨?_, rfl, rfl⟩
  have h1 : Reach idDigest true
      (TodoService.createTodo idDigest failChain [] "u" { title := "t" } "a" 0 1).2.store :=
    Reach.create true (Reach.base true) failChain "u" { title := "t" } "a" 0 1
  have hstore : (TodoService.createTodo idDigest failChain [] "u"
      { title := "t" } "a" 0 1).2.store = [pendingDoc] := by decide
  rw [hstore] at h1
  have h2 := Reach.bareStatus h1 "a" .synced (some "0xabc") none 2
    (show TodoRepository.updateBlockchainStatus [pendingDoc] "a" .synced (some "0xabc") none 2
        = .ok ([bareSyncedDoc], some bareSyncedDoc) by decide)
  exact h2

/-- Claim C1 as amended: for every store reachable through `createTodo`,
`updateTodo`, `toggleComplete` and their background sync completions
(excluding bare `updateBlockchainStatus` calls, which the repository's own
callers only ever issue with status `failed`), a `synced` document carries
a non-null `blockchainHash` equal to `generateTodoHash` of the snapshot
recorded at its last successful sync. -/
theorem c1_amended_synced_hash_invariant :
    ∀ (digest : String → String) (s : Store), Reach digest false s →
      ∀ d ∈ s, syncedHashInv digest d :=
  fun digest _ h => reach_storeInv digest h rfl

/-- Witness for C1: the concrete synced fixture is reachable and satisfies
the invariant. -/
theorem c1_witness :
    syncedDoc ∈ (TodoService.createTodo idDigest okChain [] "u"
      { title := "t" } "a" 0 1).2.store ∧
    syncedHashInv idDigest syncedDoc :=
  ⟨by decide,
   c1_amended_synced_hash_invariant idDigest _
     (Reach.create false (Reach.base false) okChain "u" { title := "t" } "a" 0 1)
     syncedDoc (by decide)⟩

end TodoApp
